import Mathlib

/-!
# mcp-demo-go: a shallow embedding of `main.go`

The development models the request handlers of `main.go` as pure functions.

* Go `interface{}` values (as produced by `encoding/json`, and as handed to
  `json.NewEncoder(w).Encode`) are the inductive type `Any`.
* A `map[string]interface{}` is an association list; indexing a map with an
  absent key (or indexing a nil map) yields the nil interface value.
* A `float64` is a finite binary floating point number `± mant * 2 ^ exp`;
  `encoding/json` only ever produces finite values.
* Go `int` is the 64 bit signed integer: arithmetic wraps modulo `2 ^ 64`.
* `http.ResponseWriter` is a record of the headers set, the status line sent
  and the values encoded to the body.
* `rand.Intn(len(dadJokes))` is an input of the handlers that draw a joke.
-/

set_option autoImplicit false

namespace McpDemo

/-! ## Machine numbers -/

/-- Smallest value of the Go type `int` on a 64 bit platform. -/
def minInt64 : Int := -9223372036854775808

/-- Largest value of the Go type `int` on a 64 bit platform. -/
def maxInt64 : Int := 9223372036854775807

/-- Whether an integer is representable in the Go type `int` (64 bit). -/
def InInt64 (x : Int) : Prop := minInt64 ≤ x ∧ x ≤ maxInt64

instance (x : Int) : Decidable (InInt64 x) := by
  unfold InInt64; infer_instance

/-- Two's complement wrap-around of an integer into the range of `int`. -/
def wrapInt64 (x : Int) : Int := (x + 9223372036854775808) % 18446744073709551616 - 9223372036854775808

/-- A finite `float64` value: `(-1) ^ neg * mant * 2 ^ exp`. -/
structure Float64 where
  neg : Bool
  mant : Nat
  exp : Int
deriving DecidableEq, Repr

namespace Float64

/-- The values of this shape that are IEEE 754 binary64 numbers. -/
def Valid (f : Float64) : Prop := f.mant < 9007199254740992 ∧ -1074 ≤ f.exp ∧ f.exp ≤ 971

instance (f : Float64) : Decidable (Valid f) := by
  unfold Valid; infer_instance

/-- The exact rational value of a finite `float64`. -/
def toRat (f : Float64) : ℚ := (if f.neg then -1 else 1) * (f.mant : ℚ) * (2 : ℚ) ^ f.exp

/-- Magnitude of the integer part: the fraction bits are shifted out. -/
def truncMag (f : Float64) : Nat :=
  if 0 ≤ f.exp then f.mant * 2 ^ f.exp.toNat else f.mant / 2 ^ (-f.exp).toNat

/-- The integer part of a `float64`, the fraction discarded. -/
def trunc (f : Float64) : Int :=
  if f.neg then -(f.truncMag : Int) else (f.truncMag : Int)

/-- The Go conversion `int(f)`: the fraction is discarded; a value outside the
range of `int` converts to the integer indefinite value of the amd64
instruction `CVTTSD2SQ` (the Go specification leaves that case to the
implementation). -/
def toInt (f : Float64) : Int :=
  if InInt64 f.trunc then f.trunc else minInt64

end Float64

/-- Truncation of a rational number toward zero. -/
def truncTowardZero (q : ℚ) : Int := if 0 ≤ q then ⌊q⌋ else ⌈q⌉

/-- The function `strconv.Itoa`: the decimal representation of an `int`. -/
def Itoa (i : Int) : String := toString i

/-! ## Dynamic values -/

/-- The type `mcp.TextContent`. -/
structure TextContent where
  Type_ : String
  Text : String
deriving DecidableEq, Repr

/-- The type `mcp.CallToolResult`. -/
structure CallToolResult where
  Content : List TextContent
deriving DecidableEq

/-- Go values of type `interface{}` that occur in the handlers. -/
inductive Any where
  | nil : Any
  | bool (b : Bool) : Any
  | float64 (f : Float64) : Any
  | int (i : Int) : Any
  | string (s : String) : Any
  | slice (xs : List Any) : Any
  | map (m : List (String × Any)) : Any
  | textContent (c : TextContent) : Any

/-- Association list standing for a `map[string]interface{}`. -/
abbrev GoMap := List (String × Any)

/-- The index expression `m[k]`: the zero value (nil) when `k` is absent. -/
def GoMap.index : GoMap → String → Any
  | [], _ => Any.nil
  | (k, v) :: rest, key => if k = key then v else GoMap.index rest key

/-- The type assertion `v.(float64)` in its comma-ok form. -/
def Any.assertFloat64 : Any → Float64 × Bool
  | Any.float64 f => (f, true)
  | _ => (⟨false, 0, 0⟩, false)

/-- The type assertion `v.(string)` in its comma-ok form. -/
def Any.assertString : Any → String × Bool
  | Any.string s => (s, true)
  | _ => ("", false)

/-- The type assertion `v.(map[string]interface{})` in its comma-ok form. -/
def Any.assertMap : Any → GoMap × Bool
  | Any.map m => (m, true)
  | _ => ([], false)

/-! ## Constant data -/

/-- Dad jokes collection. -/
def dadJokes : List String := [
  "Why don't scientists trust atoms? Because they make up everything!",
  "What do you call a fake noodle? An impasta!",
  "Why did the scarecrow win an award? He was outstanding in his field!",
  "I used to hate facial hair, but then it grew on me.",
  "Why don't eggs tell jokes? They'd crack each other up!",
  "What do you call a bear with no teeth? A gummy bear!",
  "Why couldn't the bicycle stand up by itself? It was two tired!",
  "What did the ocean say to the beach? Nothing, it just waved!",
  "Why do fathers take an extra pair of socks to golf? In case they get a hole in one!",
  "How does a penguin build its house? Igloos it together!",
  "What did the janitor say when he jumped out of the closet? Supplies!",
  "Why did the math book look so sad? Because it had too many problems.",
  "What do you call cheese that isn't yours? Nacho cheese!",
  "Why can't you hear a psychiatrist using the bathroom? Because the 'p' is silent.",
  "What's the best thing about Switzerland? I don't know, but the flag is a big plus!",
  "Did you hear about the restaurant on the moon? Great food, no atmosphere.",
  "Why do chicken coops only have two doors? Because if they had four, they'd be chicken sedans!",
  "What do you call a fish wearing a bowtie? Sofishticated!",
  "How do you organize a space party? You planet!",
  "Why don't skeletons fight each other? They don't have the guts!"
]

/-! ## Process bootstrap -/

/-- What `main` goes on to run once the mode is selected. -/
inductive Action where
  | startHTTPServer (port : String) : Action
  | ServeStdio : Action
deriving DecidableEq

/-- The function `main`; `Getenv` is `os.Getenv`, which yields the empty
string for a variable that is not set. -/
def main (Getenv : String → String) : Action :=
  let mode := Getenv "SERVER_MODE"
  let mode := if mode = "" then "stdio" else mode
  if mode = "http" then
    let port := Getenv "PORT"
    let port := if port = "" then "8080" else port
    Action.startHTTPServer port
  else
    Action.ServeStdio

/-! ## Registered tools -/

/-- The type `mcp.CallToolRequest`, reduced to `Params.Arguments`. -/
structure CallToolRequest where
  Arguments : Any

/-- The method `GetArguments` of mcp-go: the arguments when they are a map,
the nil map otherwise. -/
def CallToolRequest.GetArguments (req : CallToolRequest) : GoMap :=
  req.Arguments.assertMap.1

/-- Handler registered for the tool `add`: the pair (result, error), where
`none` stands for nil. -/
def addTool (req : CallToolRequest) : Option CallToolResult × Option String :=
  let args := req.GetArguments
  let a := (args.index "a").assertFloat64
  let b := (args.index "b").assertFloat64
  if !a.2 || !b.2 then
    (none, none)
  else
    let sum := wrapInt64 (a.1.toInt + b.1.toInt)
    (some ⟨[⟨"text", Itoa sum⟩]⟩, none)

/-- Handler registered for the tool `dad_joke`; `intn` is the value of
`rand.Intn(len(dadJokes))`. The outer `none` is an index out of range. -/
def dadJokeTool (intn : Nat) : Option (Option CallToolResult × Option String) :=
  match dadJokes[intn]? with
  | none => none
  | some joke => some (some ⟨[⟨"text", joke⟩]⟩, none)

/-! ## HTTP plumbing -/

/-- State of an `http.ResponseWriter`: the header map, the status line once
it is sent, and the values written to the body by `json.Encoder.Encode`. -/
structure ResponseWriter where
  header : List (String × String)
  status : Option Nat
  body : List Any

namespace ResponseWriter

/-- A response writer nothing has been written to. -/
def fresh : ResponseWriter := ⟨[], none, []⟩

/-- The call `w.Header().Set(key, value)`. -/
def Set (w : ResponseWriter) (key value : String) : ResponseWriter :=
  ⟨(key, value) :: w.header.filter (fun kv => kv.1 ≠ key), w.status, w.body⟩

/-- The call `w.WriteHeader(code)`: only the first status line is sent. -/
def WriteHeader (w : ResponseWriter) (code : Nat) : ResponseWriter :=
  match w.status with
  | none => ⟨w.header, some code, w.body⟩
  | some _ => w

/-- The call `json.NewEncoder(w).Encode(v)`: the first write sends the status
line `200 OK` when none was sent before. -/
def Encode (w : ResponseWriter) (v : Any) : ResponseWriter :=
  let w1 := w.WriteHeader 200
  ⟨w1.header, w1.status, w1.body ++ [v]⟩

end ResponseWriter

/-- What reading and decoding the body of a request to `/mcp` comes to:
`io.ReadAll` fails, `json.Unmarshal` into a `map[string]interface{}` fails,
or the map is filled. -/
inductive Decoded where
  | readError : Decoded
  | unmarshalError : Decoded
  | ok (jsonRPCReq : GoMap) : Decoded

/-- The part of an `http.Request` the `/mcp` handler reads. -/
structure Request where
  Method : String
  Body : Decoded

/-- The tool table of the `tools/list` branch. -/
def toolsList : List Any := [
  Any.map [
    ("name", Any.string "add"),
    ("description", Any.string "Add two integers"),
    ("inputSchema", Any.map [
      ("type", Any.string "object"),
      ("properties", Any.map [
        ("a", Any.map [
          ("type", Any.string "number"),
          ("description", Any.string "First integer")]),
        ("b", Any.map [
          ("type", Any.string "number"),
          ("description", Any.string "Second integer")])]),
      ("required", Any.slice [Any.string "a", Any.string "b"])])],
  Any.map [
    ("name", Any.string "dad_joke"),
    ("description", Any.string "Get a random dad joke to brighten your day"),
    ("inputSchema", Any.map [
      ("type", Any.string "object"),
      ("properties", Any.map [])])]]

/-- The value `result.Content` as handed to the encoder. -/
def contentValue (result : CallToolResult) : Any :=
  Any.slice (result.Content.map Any.textContent)

/-- Handler of `/mcp`; `intn` is the value of `rand.Intn(len(dadJokes))`, read
by the `dad_joke` branch only. `none` is an index out of range. -/
def mcpHandler (intn : Nat) (r : Request) : Option ResponseWriter :=
  let w := ResponseWriter.fresh
  if r.Method ≠ "POST" then
    some ((w.WriteHeader 405).Encode (Any.map [("error", Any.string "Only POST method is allowed")]))
  else
    match r.Body with
    | Decoded.readError =>
      some ((w.WriteHeader 400).Encode (Any.map [("error", Any.string "Failed to read request body")]))
    | Decoded.unmarshalError =>
      some ((w.WriteHeader 400).Encode (Any.map [("error", Any.string "Invalid JSON-RPC request")]))
    | Decoded.ok jsonRPCReq =>
      let method := (jsonRPCReq.index "method").assertString.1
      let w := w.Set "Content-Type" "application/json"
      if method = "tools/list" then
        let id := jsonRPCReq.index "id"
        let response := Any.map [
          ("jsonrpc", Any.string "2.0"),
          ("id", id),
          ("result", Any.map [("tools", Any.slice toolsList)])]
        some (w.Encode response)
      else if method = "tools/call" then
        let id := jsonRPCReq.index "id"
        let params := (jsonRPCReq.index "params").assertMap.1
        let toolName := (params.index "name").assertString.1
        let arguments := (params.index "arguments").assertMap.1
        let respond (result : CallToolResult) : ResponseWriter :=
          w.Encode (Any.map [
            ("jsonrpc", Any.string "2.0"),
            ("id", id),
            ("result", Any.map [("content", contentValue result)])])
        if toolName = "add" then
          let a := (arguments.index "a").assertFloat64
          let b := (arguments.index "b").assertFloat64
          if !a.2 || !b.2 then
            some ((w.WriteHeader 400).Encode (Any.map [
              ("jsonrpc", Any.string "2.0"),
              ("id", id),
              ("error", Any.map [
                ("code", Any.int (-32602)),
                ("message", Any.string "Invalid parameters: a and b must be numbers")])]))
          else
            let sum := wrapInt64 (a.1.toInt + b.1.toInt)
            some (respond ⟨[⟨"text", Itoa sum⟩]⟩)
        else if toolName = "dad_joke" then
          match dadJokes[intn]? with
          | none => none
          | some joke => some (respond ⟨[⟨"text", joke⟩]⟩)
        else
          some ((w.WriteHeader 404).Encode (Any.map [
            ("jsonrpc", Any.string "2.0"),
            ("id", id),
            ("error", Any.map [
              ("code", Any.int (-32601)),
              ("message", Any.string ("Tool not found: " ++ toolName))])]))
      else
        some ((w.WriteHeader 501).Encode (Any.map [
          ("jsonrpc", Any.string "2.0"),
          ("id", jsonRPCReq.index "id"),
          ("error", Any.map [
            ("code", Any.int (-32601)),
            ("message", Any.string ("Method not found: " ++ method))])]))

/-- Handler of `/api/joke`; `intn` is the value of
`rand.Intn(len(dadJokes))`. `none` is an index out of range. -/
def apiJokeHandler (intn : Nat) : Option ResponseWriter :=
  match dadJokes[intn]? with
  | none => none
  | some joke =>
    let w := ResponseWriter.fresh.Set "Content-Type" "application/json"
    some (w.Encode (Any.map [("joke", Any.string joke)]))

/-! ## Integer parsing -/

/-- Value of a decimal digit. -/
def digitValue (c : Char) : Option Nat :=
  if 48 ≤ c.toNat ∧ c.toNat ≤ 57 then some (c.toNat - 48) else none

/-- Value of a run of decimal digits read after `acc`; `none` when a character
is not a digit. -/
def parseDigits : List Char → Nat → Option Nat
  | [], acc => some acc
  | c :: cs, acc =>
    match digitValue c with
    | none => none
    | some d => parseDigits cs (acc * 10 + d)

/-- The function `strconv.Atoi` of the Go library, `none` standing for a
non-nil error: an optional sign `+` or `-`, then one or more decimal digits,
the value within the range of `int`. -/
def Atoi (s : String) : Option Int :=
  match s.data with
  | [] => none
  | c :: cs =>
    let digits := if c = '-' ∨ c = '+' then cs else c :: cs
    if digits = [] then none
    else
      match parseDigits digits 0 with
      | none => none
      | some un =>
        if c = '-' then
          if un > 9223372036854775808 then none else some (-(un : Int))
        else
          if un ≥ 9223372036854775808 then none else some (un : Int)

/-- Handler of `/api/add`; `aStr` and `bStr` are `r.URL.Query().Get("a")` and
`r.URL.Query().Get("b")`. -/
def apiAddHandler (aStr bStr : String) : ResponseWriter :=
  let w := ResponseWriter.fresh
  match Atoi aStr, Atoi bStr with
  | some a, some b =>
    let sum := wrapInt64 (a + b)
    let w := w.Set "Content-Type" "application/json"
    w.Encode (Any.map [("a", Any.int a), ("b", Any.int b), ("result", Any.int sum)])
  | _, _ =>
    let w := w.Set "Content-Type" "application/json"
    let w := w.WriteHeader 400
    w.Encode (Any.map [("error", Any.string "Invalid parameters. Use: /api/add?a=5&b=3")])

/-! ## Vocabulary of the statements -/

/-- Header map of a response whose content type was set to JSON. -/
def jsonHeader : List (String × String) := [("Content-Type", "application/json")]

/-- A JSON-RPC error object `{"jsonrpc":"2.0","id":id,"error":{code,message}}`. -/
def rpcError (id : Any) (code : Int) (message : String) : Any :=
  Any.map [
    ("jsonrpc", Any.string "2.0"),
    ("id", id),
    ("error", Any.map [("code", Any.int code), ("message", Any.string message)])]

/-- A JSON-RPC success object `{"jsonrpc":"2.0","id":id,"result":{key: value}}`. -/
def rpcResult (id : Any) (key : String) (value : Any) : Any :=
  Any.map [
    ("jsonrpc", Any.string "2.0"),
    ("id", id),
    ("result", Any.map [(key, value)])]

/-- The member `key` of a value that is a JSON object; nil when the value is
no object or has no such member. -/
def Any.field (v : Any) (key : String) : Any :=
  match v with
  | Any.map m => GoMap.index m key
  | _ => Any.nil

/-- Whether the value is a JSON number, a `float64` once decoded. -/
def Any.isNumber : Any → Bool
  | Any.float64 _ => true
  | _ => false

/-- The three joke paths, at the random draw `intn`, all answer `joke`. -/
def AllAnswer (req : GoMap) (intn : Nat) (joke : String) : Prop :=
  dadJokeTool intn = some (some ⟨[⟨"text", joke⟩]⟩, none) ∧
    mcpHandler intn ⟨"POST", Decoded.ok req⟩ =
      some ⟨jsonHeader, some 200, [rpcResult (req.index "id") "content"
        (Any.slice [Any.textContent ⟨"text", joke⟩])]⟩ ∧
    apiJokeHandler intn =
      some ⟨jsonHeader, some 200, [Any.map [("joke", Any.string joke)]]⟩

/-! ## Example inputs -/

/-- Example arguments `{a: 2.9, b: 3.9}`. -/
def argsFractional : GoMap :=
  [("a", Any.float64 ⟨false, 6530219459687219, -51⟩), ("b", Any.float64 ⟨false, 8782019273372467, -51⟩)]

/-- Example arguments `{a: 4611686018427387904, b: 4611686018427387904}`. -/
def argsOverflow : GoMap :=
  [("a", Any.float64 ⟨false, 1, 62⟩), ("b", Any.float64 ⟨false, 1, 62⟩)]

/-- A `tools/call` request for the tool `name` with the given arguments. -/
def callRequest (id : Any) (name : String) (args : GoMap) : GoMap :=
  [("jsonrpc", Any.string "2.0"), ("id", id), ("method", Any.string "tools/call"),
   ("params", Any.map [("name", Any.string name), ("arguments", Any.map args)])]

/-! ## Arithmetic facts -/

theorem wrapInt64_of_inInt64 {x : Int} (h : InInt64 x) : wrapInt64 x = x := by
  unfold InInt64 minInt64 maxInt64 at h
  unfold wrapInt64
  omega

theorem inInt64_wrapInt64 (x : Int) : InInt64 (wrapInt64 x) := by
  unfold InInt64 minInt64 maxInt64 wrapInt64
  omega

theorem Float64.toInt_of_inInt64 {f : Float64} (h : InInt64 f.trunc) : f.toInt = f.trunc := by
  unfold Float64.toInt
  rw [if_pos h]

/-- The magnitude of the integer part is the floor of the magnitude. -/
theorem Float64.floor_mag (f : Float64) :
    ⌊(f.mant : ℚ) * (2 : ℚ) ^ f.exp⌋ = (f.truncMag : Int) := by
  unfold Float64.truncMag
  by_cases h : 0 ≤ f.exp
  · obtain ⟨k, hk⟩ := Int.eq_ofNat_of_zero_le h
    rw [if_pos h, hk, Int.toNat_ofNat, zpow_natCast]
    have : (f.mant : ℚ) * (2 : ℚ) ^ k = ((f.mant * 2 ^ k : ℕ) : ℚ) := by push_cast; ring
    rw [this, Int.floor_natCast]
  · have hneg : 0 ≤ -f.exp := by omega
    obtain ⟨k, hk⟩ := Int.eq_ofNat_of_zero_le hneg
    have he : f.exp = -(k : Int) := by omega
    rw [if_neg h, hk, Int.toNat_ofNat, he, zpow_neg, zpow_natCast]
    have : (f.mant : ℚ) * ((2 : ℚ) ^ k)⁻¹ = (f.mant : ℚ) / ((2 ^ k : ℕ) : ℚ) := by
      push_cast; rw [div_eq_mul_inv]
    rw [this, Rat.floor_natCast_div_natCast]
    norm_cast

/-- The integer part of a `float64` is its exact value truncated toward zero. -/
theorem Float64.trunc_eq_truncTowardZero (f : Float64) :
    f.trunc = truncTowardZero f.toRat := by
  have hfloor := Float64.floor_mag f
  have hnn : (0 : ℚ) ≤ (f.mant : ℚ) * (2 : ℚ) ^ f.exp := by positivity
  unfold Float64.trunc truncTowardZero Float64.toRat
  cases hs : f.neg
  · simp only [Bool.false_eq_true, if_false, one_mul]
    rw [if_pos hnn, hfloor]
  · simp only [if_true]
    have hval : (-1 : ℚ) * (f.mant : ℚ) * (2 : ℚ) ^ f.exp = -((f.mant : ℚ) * (2 : ℚ) ^ f.exp) := by
      ring
    rw [hval]
    by_cases h0 : (0 : ℚ) ≤ -((f.mant : ℚ) * (2 : ℚ) ^ f.exp)
    · have hz : (f.mant : ℚ) * (2 : ℚ) ^ f.exp = 0 := le_antisymm (by linarith) hnn
      rw [if_pos h0]
      rw [hz] at hfloor
      rw [hz, ← hfloor]
      simp
    · rw [if_neg h0, Int.ceil_neg, hfloor]

/-! ## Facts about the dynamic values -/

theorem Any.field_eq_index (v : Any) (key : String) :
    v.field key = GoMap.index v.assertMap.1 key := by
  cases v <;> rfl

@[simp]
theorem Any.assertMap_map (m : List (String × Any)) : (Any.map m).assertMap = (m, true) := rfl

@[simp]
theorem Any.assertString_string (s : String) : (Any.string s).assertString = (s, true) := rfl

@[simp]
theorem Any.assertFloat64_float64 (f : Float64) :
    (Any.float64 f).assertFloat64 = (f, true) := rfl

theorem Any.assertFloat64_isNumber (v : Any) : v.assertFloat64.2 = v.isNumber := by
  cases v <;> rfl

/-- The `add` branch of `/mcp`, its inputs read through the accessors. -/
theorem mcpHandler_add (intn : Nat) (req params : GoMap)
    (hm : req.index "method" = Any.string "tools/call")
    (hp : req.index "params" = Any.map params)
    (hn : params.index "name" = Any.string "add") :
    mcpHandler intn ⟨"POST", Decoded.ok req⟩ =
      if ((params.index "arguments").field "a").assertFloat64.2 = true ∧
          ((params.index "arguments").field "b").assertFloat64.2 = true then
        some ⟨jsonHeader, some 200, [rpcResult (req.index "id") "content" (Any.slice
          [Any.textContent ⟨"text", Itoa (wrapInt64
            (((params.index "arguments").field "a").assertFloat64.1.toInt +
              ((params.index "arguments").field "b").assertFloat64.1.toInt))⟩])]⟩
      else
        some ⟨jsonHeader, some 400, [rpcError (req.index "id") (-32602)
          "Invalid parameters: a and b must be numbers"]⟩ := by
  simp only [Any.field_eq_index]
  cases h1 : (GoMap.index (params.index "arguments").assertMap.1 "a").assertFloat64.2 <;>
  cases h2 : (GoMap.index (params.index "arguments").assertMap.1 "b").assertFloat64.2 <;>
  simp [mcpHandler, hm, hp, hn, h1, h2,
      ResponseWriter.fresh, ResponseWriter.Set, ResponseWriter.Encode,
      ResponseWriter.WriteHeader, jsonHeader, rpcResult, rpcError, contentValue]

/-! ## Integer parsing inverts integer printing -/

theorem digitValue_digitChar (k : Nat) (h : k < 10) : digitValue (Nat.digitChar k) = some k := by
  interval_cases k <;> decide

theorem parseDigits_toDigitsCore (fuel : Nat) :
    ∀ (n : Nat) (ds : List Char), n < fuel →
      parseDigits (Nat.toDigitsCore 10 fuel n ds) 0 = parseDigits ds n := by
  induction fuel with
  | zero => intro n ds h; omega
  | succ fuel ih =>
    intro n ds h
    have hd : digitValue (Nat.digitChar (n % 10)) = some (n % 10) :=
      digitValue_digitChar _ (Nat.mod_lt _ (by decide))
    simp only [Nat.toDigitsCore]
    by_cases h0 : n / 10 = 0
    · rw [if_pos h0]
      have hn : n % 10 = n := by omega
      simp only [parseDigits, hd, Nat.zero_mul, Nat.zero_add]
      rw [hn]
    · rw [if_neg h0, ih (n / 10) _ (by omega)]
      have hn : n / 10 * 10 + n % 10 = n := by omega
      simp [parseDigits, hd, hn]

theorem parseDigits_toDigits (n : Nat) : parseDigits (Nat.toDigits 10 n) 0 = some n := by
  unfold Nat.toDigits
  rw [parseDigits_toDigitsCore (n + 1) n [] (by omega)]
  rfl

/-- The first character of a run of digits is no sign. -/
theorem parseDigits_head {c : Char} {cs : List Char} {n : Nat}
    (h : parseDigits (c :: cs) 0 = some n) : ¬ (c = '-' ∨ c = '+') := by
  rintro (rfl | rfl) <;> simp [parseDigits, digitValue] at h

theorem toDigits_ne_nil (n : Nat) : Nat.toDigits 10 n ≠ [] := by
  intro h
  have := parseDigits_toDigits n
  rw [h] at this
  simp only [parseDigits, Option.some.injEq] at this
  subst this
  revert h
  decide

/-- The function `Atoi` reads back what `Itoa` prints, on the range of `int`. -/
theorem Atoi_Itoa (i : Int) (h : InInt64 i) : Atoi (Itoa i) = some i := by
  unfold InInt64 minInt64 maxInt64 at h
  cases i with
  | ofNat n =>
    have hp := parseDigits_toDigits n
    have hne := toDigits_ne_nil n
    have hdata : (Itoa (Int.ofNat n)).data = Nat.toDigits 10 n := rfl
    unfold Atoi
    rw [hdata]
    cases hl : Nat.toDigits 10 n with
    | nil => exact absurd hl hne
    | cons c cs =>
      rw [hl] at hp
      have hs := parseDigits_head hp
      have hc : ¬ c = '-' := fun e => hs (Or.inl e)
      simp only [if_neg hs, hp, if_neg hc]
      have : ¬ n ≥ 9223372036854775808 := by
        have := h.2
        simp only [Int.ofNat_eq_coe] at this
        omega
      simp [this]
  | negSucc m =>
    have hp := parseDigits_toDigits (m + 1)
    have hne := toDigits_ne_nil (m + 1)
    have hdata : (Itoa (Int.negSucc m)).data = '-' :: Nat.toDigits 10 (m + 1) := rfl
    unfold Atoi
    rw [hdata]
    have : ¬ m + 1 > 9223372036854775808 := by
      have := h.1
      rw [Int.negSucc_eq] at this
      omega
    simp [hne, hp, this]
    rw [Int.negSucc_eq]
    omega

/-- What `Atoi` accepts lies in the range of `int`. -/
theorem Atoi_inInt64 {s : String} {n : Int} (h : Atoi s = some n) : InInt64 n := by
  unfold Atoi at h
  unfold InInt64 minInt64 maxInt64
  cases hd : s.data with
  | nil => rw [hd] at h; exact absurd h (by simp)
  | cons c cs =>
    rw [hd] at h
    simp only at h
    by_cases hnil : (if c = '-' ∨ c = '+' then cs else c :: cs) = []
    · rw [if_pos hnil] at h; exact absurd h (by simp)
    · rw [if_neg hnil] at h
      cases hp : parseDigits (if c = '-' ∨ c = '+' then cs else c :: cs) 0 with
      | none => rw [hp] at h; exact absurd h (by simp)
      | some un =>
        rw [hp] at h
        simp only at h
        split_ifs at h <;> simp only [Option.some.injEq, reduceCtorEq] at h <;> omega

/-! ## The `add` tool -/

/-- C1 (amended): for numeric arguments `a` and `b` whose truncations toward
zero fit the 64 bit `int`, the registry handler and the `add` branch of
`/mcp` both return one text block, whose text is the decimal string of
`trunc a + trunc b` wrapped into the range of `int`; the wrap is the identity
when the sum fits, so the text is then the decimal string of
`trunc a + trunc b`. -/
theorem add_returns_truncated_sum (intn : Nat) (req params args : GoMap) (a b : Float64)
    (hm : req.index "method" = Any.string "tools/call")
    (hp : req.index "params" = Any.map params)
    (hn : params.index "name" = Any.string "add")
    (hargs : params.index "arguments" = Any.map args)
    (ha : args.index "a" = Any.float64 a) (hb : args.index "b" = Any.float64 b)
    (hra : InInt64 (truncTowardZero a.toRat)) (hrb : InInt64 (truncTowardZero b.toRat)) :
    addTool ⟨Any.map args⟩ =
        (some ⟨[⟨"text", Itoa (wrapInt64 (truncTowardZero a.toRat + truncTowardZero b.toRat))⟩]⟩,
          none) ∧
      mcpHandler intn ⟨"POST", Decoded.ok req⟩ =
        some ⟨jsonHeader, some 200, [rpcResult (req.index "id") "content" (Any.slice
          [Any.textContent ⟨"text",
            Itoa (wrapInt64 (truncTowardZero a.toRat + truncTowardZero b.toRat))⟩])]⟩ ∧
      (InInt64 (truncTowardZero a.toRat + truncTowardZero b.toRat) →
        wrapInt64 (truncTowardZero a.toRat + truncTowardZero b.toRat) =
          truncTowardZero a.toRat + truncTowardZero b.toRat) := by
  have hta : a.toInt = truncTowardZero a.toRat := by
    rw [← Float64.trunc_eq_truncTowardZero] at hra ⊢
    exact Float64.toInt_of_inInt64 hra
  have htb : b.toInt = truncTowardZero b.toRat := by
    rw [← Float64.trunc_eq_truncTowardZero] at hrb ⊢
    exact Float64.toInt_of_inInt64 hrb
  refine ⟨?_, ?_, wrapInt64_of_inInt64⟩
  · simp [addTool, CallToolRequest.GetArguments, ha, hb, hta, htb]
  · rw [mcpHandler_add intn req params hm hp hn]
    simp [hargs, Any.field, ha, hb, hta, htb]

/-- Witness of C1: `add(2.9, 3.9)` yields `"5"` on both paths. -/
theorem add_returns_truncated_sum_witness :
    InInt64 (truncTowardZero (Float64.toRat ⟨false, 6530219459687219, -51⟩)) ∧
      InInt64 (truncTowardZero (Float64.toRat ⟨false, 8782019273372467, -51⟩)) ∧
      addTool ⟨Any.map argsFractional⟩ = (some ⟨[⟨"text", "5"⟩]⟩, none) ∧
      mcpHandler 0 ⟨"POST", Decoded.ok (callRequest Any.nil "add" argsFractional)⟩ =
        some ⟨jsonHeader, some 200, [rpcResult Any.nil "content" (Any.slice
          [Any.textContent ⟨"text", "5"⟩])]⟩ := by
  have hra : InInt64 (truncTowardZero (Float64.toRat ⟨false, 6530219459687219, -51⟩)) := by
    rw [← Float64.trunc_eq_truncTowardZero]; decide
  have hrb : InInt64 (truncTowardZero (Float64.toRat ⟨false, 8782019273372467, -51⟩)) := by
    rw [← Float64.trunc_eq_truncTowardZero]; decide
  have h := add_returns_truncated_sum 0 (callRequest Any.nil "add" argsFractional)
    [("name", Any.string "add"), ("arguments", Any.map argsFractional)] argsFractional
    ⟨false, 6530219459687219, -51⟩ ⟨false, 8782019273372467, -51⟩
    rfl rfl rfl rfl rfl rfl hra hrb
  have e : Itoa (wrapInt64 (truncTowardZero (Float64.toRat ⟨false, 6530219459687219, -51⟩) +
      truncTowardZero (Float64.toRat ⟨false, 8782019273372467, -51⟩))) = "5" := by
    rw [← Float64.trunc_eq_truncTowardZero, ← Float64.trunc_eq_truncTowardZero]; decide
  rw [e] at h
  exact ⟨hra, hrb, h.1, h.2.1⟩

/-- Counterexample to C1 as stated: for the arguments
`a = b = 4611686018427387904` (both exact `float64` numbers) the sum of the
truncations is `9223372036854775808`, and both paths answer
`"-9223372036854775808"`. -/
theorem add_sum_overflow_counterexample :
    Float64.Valid ⟨false, 1, 62⟩ ∧
      Itoa (truncTowardZero (Float64.toRat ⟨false, 1, 62⟩) +
        truncTowardZero (Float64.toRat ⟨false, 1, 62⟩)) = "9223372036854775808" ∧
      addTool ⟨Any.map argsOverflow⟩ = (some ⟨[⟨"text", "-9223372036854775808"⟩]⟩, none) ∧
      mcpHandler 0 ⟨"POST", Decoded.ok (callRequest Any.nil "add" argsOverflow)⟩ =
        some ⟨jsonHeader, some 200, [rpcResult Any.nil "content" (Any.slice
          [Any.textContent ⟨"text", "-9223372036854775808"⟩])]⟩ ∧
      "-9223372036854775808" ≠ Itoa (truncTowardZero (Float64.toRat ⟨false, 1, 62⟩) +
        truncTowardZero (Float64.toRat ⟨false, 1, 62⟩)) := by
  have e : Itoa (truncTowardZero (Float64.toRat ⟨false, 1, 62⟩) +
      truncTowardZero (Float64.toRat ⟨false, 1, 62⟩)) = "9223372036854775808" := by
    rw [← Float64.trunc_eq_truncTowardZero]; decide
  refine ⟨by decide, e, by decide, rfl, ?_⟩
  rw [e]; decide

/-! ## The REST endpoint `/api/add` -/

/-- C2 (amended): `/api/add` answers 400 with the error body exactly when
`strconv.Atoi` rejects one of the two query values; otherwise it answers 200
with `a`, `b` the parsed integers, both in the range of the 64 bit `int`, and
`result` their sum wrapped into that range, which is `a + b` whenever the sum
fits. -/
theorem apiAdd_response (aStr bStr : String) :
    (apiAddHandler aStr bStr =
        ⟨jsonHeader, some 400,
          [Any.map [("error", Any.string "Invalid parameters. Use: /api/add?a=5&b=3")]]⟩ ↔
      (Atoi aStr = none ∨ Atoi bStr = none)) ∧
    (∀ a b : Int, Atoi aStr = some a → Atoi bStr = some b →
      apiAddHandler aStr bStr =
          ⟨jsonHeader, some 200,
            [Any.map [("a", Any.int a), ("b", Any.int b),
              ("result", Any.int (wrapInt64 (a + b)))]]⟩ ∧
        InInt64 a ∧ InInt64 b ∧
        (InInt64 (a + b) → wrapInt64 (a + b) = a + b)) := by
  constructor
  · cases hA : Atoi aStr <;> cases hB : Atoi bStr <;>
      simp [apiAddHandler, hA, hB, ResponseWriter.fresh, ResponseWriter.Set,
        ResponseWriter.Encode, ResponseWriter.WriteHeader, jsonHeader]
  · intro a b hA hB
    refine ⟨?_, Atoi_inInt64 hA, Atoi_inInt64 hB, wrapInt64_of_inInt64⟩
    simp [apiAddHandler, hA, hB, ResponseWriter.fresh, ResponseWriter.Set,
      ResponseWriter.Encode, ResponseWriter.WriteHeader, jsonHeader]

/-- Counterexample to C2 as stated: `/api/add?a=9223372036854775807&b=1`
parses both values and answers 200 with `result` `-9223372036854775808`, which
is not the sum `9223372036854775808`. -/
theorem apiAdd_sum_overflow_counterexample :
    Atoi "9223372036854775807" = some 9223372036854775807 ∧
      Atoi "1" = some 1 ∧
      apiAddHandler "9223372036854775807" "1" =
        ⟨jsonHeader, some 200,
          [Any.map [("a", Any.int 9223372036854775807), ("b", Any.int 1),
            ("result", Any.int (-9223372036854775808))]]⟩ ∧
      Any.int (-9223372036854775808) ≠ Any.int (9223372036854775807 + 1) := by
  refine ⟨by decide, by decide, rfl, ?_⟩
  intro h
  exact absurd (Any.int.inj h) (by decide)

/-! ## The JSON-RPC endpoint `/mcp` -/

/-- C3: a `tools/call` of `add` is answered with status 400 and the JSON-RPC
error -32602 carrying the request id exactly when argument `a` or argument
`b` is absent from `params.arguments` or is no JSON number; the body is then
the error object alone. With both numbers the answer is a 200 result. -/
theorem mcp_add_invalid_params (intn : Nat) (req params : GoMap)
    (hm : req.index "method" = Any.string "tools/call")
    (hp : req.index "params" = Any.map params)
    (hn : params.index "name" = Any.string "add") :
    (mcpHandler intn ⟨"POST", Decoded.ok req⟩ =
        some ⟨jsonHeader, some 400, [rpcError (req.index "id") (-32602)
          "Invalid parameters: a and b must be numbers"]⟩ ↔
      (((params.index "arguments").field "a").isNumber = false ∨
        ((params.index "arguments").field "b").isNumber = false)) ∧
    ((((params.index "arguments").field "a").isNumber = true ∧
        ((params.index "arguments").field "b").isNumber = true) →
      ∃ text : String, mcpHandler intn ⟨"POST", Decoded.ok req⟩ =
        some ⟨jsonHeader, some 200, [rpcResult (req.index "id") "content"
          (Any.slice [Any.textContent ⟨"text", text⟩])]⟩) := by
  rw [mcpHandler_add intn req params hm hp hn]
  simp only [Any.assertFloat64_isNumber]
  by_cases h : ((params.index "arguments").field "a").isNumber = true ∧
      ((params.index "arguments").field "b").isNumber = true
  · rw [if_pos h]
    refine ⟨?_, fun _ => ⟨_, rfl⟩⟩
    simp [h.1, h.2]
  · rw [if_neg h]
    refine ⟨?_, fun h2 => absurd h2 h⟩
    simp only [true_iff]
    cases ha : ((params.index "arguments").field "a").isNumber
    · exact Or.inl rfl
    · cases hb : ((params.index "arguments").field "b").isNumber
      · exact Or.inr rfl
      · exact absurd ⟨ha, hb⟩ h

/-- Witness of C3: a call of `add` whose argument `b` is a string. -/
theorem mcp_add_invalid_params_witness :
    mcpHandler 0 ⟨"POST", Decoded.ok (callRequest (Any.string "r1") "add"
        [("a", Any.float64 ⟨false, 2, 0⟩), ("b", Any.string "3")])⟩ =
      some ⟨jsonHeader, some 400, [rpcError (Any.string "r1") (-32602)
        "Invalid parameters: a and b must be numbers"]⟩ :=
  ((mcp_add_invalid_params 0 (callRequest (Any.string "r1") "add"
        [("a", Any.float64 ⟨false, 2, 0⟩), ("b", Any.string "3")])
      [("name", Any.string "add"), ("arguments", Any.map
        [("a", Any.float64 ⟨false, 2, 0⟩), ("b", Any.string "3")])]
      rfl rfl rfl).1).2 (Or.inr rfl)

/-- C4: a request whose method is neither `tools/list` nor `tools/call`
(absent and non-string methods included) is answered with status 501 and the
JSON-RPC error -32601 carrying the request id. -/
theorem mcp_unknown_method (intn : Nat) (req : GoMap)
    (hlist : req.index "method" ≠ Any.string "tools/list")
    (hcall : req.index "method" ≠ Any.string "tools/call") :
    mcpHandler intn ⟨"POST", Decoded.ok req⟩ =
      some ⟨jsonHeader, some 501, [rpcError (req.index "id") (-32601)
        ("Method not found: " ++ (req.index "method").assertString.1)]⟩ := by
  have h1 : (req.index "method").assertString.1 ≠ "tools/list" := by
    cases h : req.index "method" <;> simp_all [Any.assertString]
  have h2 : (req.index "method").assertString.1 ≠ "tools/call" := by
    cases h : req.index "method" <;> simp_all [Any.assertString]
  simp [mcpHandler, h1, h2, ResponseWriter.fresh, ResponseWriter.Set, ResponseWriter.Encode,
    ResponseWriter.WriteHeader, jsonHeader, rpcError]

/-- Witness of C4: the method `resources/list`, and a request without method. -/
theorem mcp_unknown_method_witness :
    mcpHandler 0 ⟨"POST", Decoded.ok
        [("jsonrpc", Any.string "2.0"), ("id", Any.float64 ⟨false, 7, 0⟩),
          ("method", Any.string "resources/list")]⟩ =
      some ⟨jsonHeader, some 501, [rpcError (Any.float64 ⟨false, 7, 0⟩) (-32601)
        "Method not found: resources/list"]⟩ :=
  mcp_unknown_method 0
    [("jsonrpc", Any.string "2.0"), ("id", Any.float64 ⟨false, 7, 0⟩),
      ("method", Any.string "resources/list")]
    (by intro h; exact absurd (Any.string.inj h) (by decide))
    (by intro h; exact absurd (Any.string.inj h) (by decide))

/-- C5: a `tools/call` whose `params.name` is neither `add` nor `dad_joke`
(absent `params`, absent and non-string names included) is answered with
status 404 and the JSON-RPC error -32601 carrying the request id; the answer
holds no result and does not depend on the random draw. -/
theorem mcp_unknown_tool (intn : Nat) (req : GoMap)
    (hm : req.index "method" = Any.string "tools/call")
    (hadd : (req.index "params").field "name" ≠ Any.string "add")
    (hjoke : (req.index "params").field "name" ≠ Any.string "dad_joke") :
    mcpHandler intn ⟨"POST", Decoded.ok req⟩ =
      some ⟨jsonHeader, some 404, [rpcError (req.index "id") (-32601)
        ("Tool not found: " ++ ((req.index "params").field "name").assertString.1)]⟩ := by
  rw [Any.field_eq_index] at hadd hjoke ⊢
  have h1 : (GoMap.index (req.index "params").assertMap.1 "name").assertString.1 ≠ "add" := by
    cases h : GoMap.index (req.index "params").assertMap.1 "name" <;>
      simp_all [Any.assertString]
  have h2 : (GoMap.index (req.index "params").assertMap.1 "name").assertString.1 ≠
      "dad_joke" := by
    cases h : GoMap.index (req.index "params").assertMap.1 "name" <;>
      simp_all [Any.assertString]
  simp [mcpHandler, hm, h1, h2, ResponseWriter.fresh, ResponseWriter.Set,
    ResponseWriter.Encode, ResponseWriter.WriteHeader, jsonHeader, rpcError]

/-- Witness of C5: a call of the tool `subtract`. -/
theorem mcp_unknown_tool_witness :
    mcpHandler 3 ⟨"POST", Decoded.ok (callRequest (Any.string "r2") "subtract" [])⟩ =
      some ⟨jsonHeader, some 404, [rpcError (Any.string "r2") (-32601)
        "Tool not found: subtract"]⟩ :=
  mcp_unknown_tool 3 (callRequest (Any.string "r2") "subtract" []) rfl
    (by intro h; exact absurd (Any.string.inj h) (by decide))
    (by intro h; exact absurd (Any.string.inj h) (by decide))

/-- C6: `tools/list` is answered with `{"jsonrpc":"2.0","id":id,"result":
{"tools":[...]}}` where `id` is the id of the request; the table holds two
descriptors, `add` and `dad_joke`; `add` declares the number properties `a`
and `b` and requires both; `dad_joke` declares no property and has no
`required` member. -/
theorem mcp_tools_list (intn : Nat) (req : GoMap)
    (hm : req.index "method" = Any.string "tools/list") :
    mcpHandler intn ⟨"POST", Decoded.ok req⟩ =
        some ⟨jsonHeader, some 200,
          [rpcResult (req.index "id") "tools" (Any.slice toolsList)]⟩ ∧
      toolsList.length = 2 ∧
      toolsList.map (fun t => t.field "name") = [Any.string "add", Any.string "dad_joke"] ∧
      toolsList.map (fun t => (t.field "inputSchema").field "properties") =
        [Any.map [
            ("a", Any.map [("type", Any.string "number"),
              ("description", Any.string "First integer")]),
            ("b", Any.map [("type", Any.string "number"),
              ("description", Any.string "Second integer")])],
          Any.map []] ∧
      toolsList.map (fun t => (t.field "inputSchema").field "required") =
        [Any.slice [Any.string "a", Any.string "b"], Any.nil] := by
  refine ⟨?_, rfl, rfl, rfl, rfl⟩
  simp [mcpHandler, hm, ResponseWriter.fresh, ResponseWriter.Set,
    ResponseWriter.Encode, ResponseWriter.WriteHeader, jsonHeader, rpcResult]

/-- Witness of C6: the request `{"jsonrpc":"2.0","id":1,"method":"tools/list"}`. -/
theorem mcp_tools_list_witness :
    mcpHandler 0 ⟨"POST", Decoded.ok [("jsonrpc", Any.string "2.0"),
        ("id", Any.float64 ⟨false, 1, 0⟩), ("method", Any.string "tools/list")]⟩ =
      some ⟨jsonHeader, some 200,
        [rpcResult (Any.float64 ⟨false, 1, 0⟩) "tools" (Any.slice toolsList)]⟩ :=
  (mcp_tools_list 0 [("jsonrpc", Any.string "2.0"),
    ("id", Any.float64 ⟨false, 1, 0⟩), ("method", Any.string "tools/list")] rfl).1

/-! ## The joke pool -/

theorem allAnswer_of_lookup (req params : GoMap) (intn : Nat) (joke : String)
    (hm : req.index "method" = Any.string "tools/call")
    (hp : req.index "params" = Any.map params)
    (hn : params.index "name" = Any.string "dad_joke")
    (h : dadJokes[intn]? = some joke) : AllAnswer req intn joke := by
  refine ⟨?_, ?_, ?_⟩
  · simp [dadJokeTool, h]
  · simp [mcpHandler, hm, hp, hn, h, ResponseWriter.fresh, ResponseWriter.Set,
      ResponseWriter.Encode, ResponseWriter.WriteHeader, jsonHeader, rpcResult, contentValue]
  · simp [apiJokeHandler, h, ResponseWriter.fresh, ResponseWriter.Set,
      ResponseWriter.Encode, ResponseWriter.WriteHeader, jsonHeader]

/-- C7: the pool has 20 entries; for every random index below 20 the
`dad_joke` tool, the `dad_joke` branch of `/mcp` and `/api/joke` all answer
the pool entry at that index (the lookup is in range), a member of the pool;
and every entry of the pool is the answer for some index below 20. -/
theorem dad_joke_in_pool (req params : GoMap)
    (hm : req.index "method" = Any.string "tools/call")
    (hp : req.index "params" = Any.map params)
    (hn : params.index "name" = Any.string "dad_joke") :
    dadJokes.length = 20 ∧
      (∀ intn : Nat, intn < 20 →
        ∃ joke : String, joke ∈ dadJokes ∧ dadJokes[intn]? = some joke ∧
          AllAnswer req intn joke) ∧
      (∀ joke : String, joke ∈ dadJokes →
        ∃ intn : Nat, intn < 20 ∧ AllAnswer req intn joke) := by
  have hlen : dadJokes.length = 20 := rfl
  refine ⟨hlen, ?_, ?_⟩
  · intro intn hlt
    have hlt2 : intn < dadJokes.length := by rw [hlen]; exact hlt
    have hget : dadJokes[intn]? = some dadJokes[intn] := List.getElem?_eq_getElem hlt2
    exact ⟨dadJokes[intn], List.getElem?_mem hget, hget,
      allAnswer_of_lookup req params intn _ hm hp hn hget⟩
  · intro joke hmem
    obtain ⟨n, hn2⟩ := List.mem_iff_getElem?.mp hmem
    obtain ⟨hlt, _⟩ := List.getElem?_eq_some.mp hn2
    exact ⟨n, by rw [← hlen]; exact hlt, allAnswer_of_lookup req params n joke hm hp hn hn2⟩

/-- Witness of C7: a `dad_joke` call, with the answers at index 19. -/
theorem dad_joke_in_pool_witness :
    AllAnswer (callRequest Any.nil "dad_joke" []) 19
      "Why don't skeletons fight each other? They don't have the guts!" := by
  obtain ⟨joke, _, hget, hall⟩ := (dad_joke_in_pool (callRequest Any.nil "dad_joke" [])
    [("name", Any.string "dad_joke"), ("arguments", Any.map [])] rfl rfl rfl).2.1 19 (by decide)
  have : joke = "Why don't skeletons fight each other? They don't have the guts!" :=
    (Option.some.inj hget).symm
  rw [← this]
  exact hall

/-! ## The registry handler of `add` -/

/-- The registry handler of `add`, its inputs read through the accessors. -/
theorem addTool_eq (req : CallToolRequest) :
    addTool req =
      if (req.Arguments.field "a").assertFloat64.2 = true ∧
          (req.Arguments.field "b").assertFloat64.2 = true then
        (some ⟨[⟨"text", Itoa (wrapInt64 ((req.Arguments.field "a").assertFloat64.1.toInt +
          (req.Arguments.field "b").assertFloat64.1.toInt))⟩]⟩, none)
      else (none, none) := by
  simp only [Any.field_eq_index]
  cases h1 : (GoMap.index req.Arguments.assertMap.1 "a").assertFloat64.2 <;>
  cases h2 : (GoMap.index req.Arguments.assertMap.1 "b").assertFloat64.2 <;>
  simp [addTool, CallToolRequest.GetArguments, h1, h2]

/-- C8: the registry handler of `add` returns (nil, nil) exactly when
argument `a` or argument `b` is absent or no `float64`; otherwise it returns
a result and a nil error; its error is nil on every request. -/
theorem addTool_nil_iff (req : CallToolRequest) :
    (addTool req = (none, none) ↔
      ((req.Arguments.field "a").isNumber = false ∨
        (req.Arguments.field "b").isNumber = false)) ∧
    (((req.Arguments.field "a").isNumber = true ∧ (req.Arguments.field "b").isNumber = true) →
      ∃ result : CallToolResult, addTool req = (some result, none)) ∧
    (addTool req).2 = none := by
  rw [addTool_eq req]
  simp only [Any.assertFloat64_isNumber]
  by_cases h : (req.Arguments.field "a").isNumber = true ∧
      (req.Arguments.field "b").isNumber = true
  · rw [if_pos h]
    refine ⟨?_, fun _ => ⟨_, rfl⟩, rfl⟩
    simp [h.1, h.2]
  · rw [if_neg h]
    refine ⟨?_, fun h2 => absurd h2 h, rfl⟩
    simp only [true_iff]
    cases ha : (req.Arguments.field "a").isNumber
    · exact Or.inl rfl
    · cases hb : (req.Arguments.field "b").isNumber
      · exact Or.inr rfl
      · exact absurd ⟨ha, hb⟩ h

/-! ## Process bootstrap -/

/-- C9: `main` starts the HTTP server exactly when `SERVER_MODE` is the
string `http`, and serves stdio for every other value; the HTTP server
listens on `PORT`, or on `8080` when `PORT` is empty. -/
theorem main_mode (Getenv : String → String) :
    ((∃ port : String, main Getenv = Action.startHTTPServer port) ↔
        Getenv "SERVER_MODE" = "http") ∧
      (main Getenv = Action.ServeStdio ↔ Getenv "SERVER_MODE" ≠ "http") ∧
      (Getenv "SERVER_MODE" = "http" →
        main Getenv =
          Action.startHTTPServer (if Getenv "PORT" = "" then "8080" else Getenv "PORT")) := by
  by_cases h : Getenv "SERVER_MODE" = "http"
  · have hne : Getenv "SERVER_MODE" ≠ "" := by rw [h]; decide
    simp [main, h]
  · by_cases he : Getenv "SERVER_MODE" = ""
    · simp [main, he]
    · simp [main, h, he]

/-! ## The two `add` paths -/

/-- C10: on every argument map the `add` branch of `/mcp` answers with a
result exactly when the registry handler, given the same arguments, returns
one, and the content of the `/mcp` result is then the content of the registry
result, a single text block. -/
theorem mcp_add_matches_addTool (intn : Nat) (req params : GoMap)
    (hm : req.index "method" = Any.string "tools/call")
    (hp : req.index "params" = Any.map params)
    (hn : params.index "name" = Any.string "add") :
    ((∃ content : Any, mcpHandler intn ⟨"POST", Decoded.ok req⟩ =
          some ⟨jsonHeader, some 200, [rpcResult (req.index "id") "content" content]⟩) ↔
        (addTool ⟨params.index "arguments"⟩).1 ≠ none) ∧
      (∀ result : CallToolResult, (addTool ⟨params.index "arguments"⟩).1 = some result →
        mcpHandler intn ⟨"POST", Decoded.ok req⟩ =
            some ⟨jsonHeader, some 200,
              [rpcResult (req.index "id") "content" (contentValue result)]⟩ ∧
          ∃ text : String, result.Content = [⟨"text", text⟩]) := by
  rw [mcpHandler_add intn req params hm hp hn, addTool_eq]
  by_cases h : ((params.index "arguments").field "a").assertFloat64.2 = true ∧
      ((params.index "arguments").field "b").assertFloat64.2 = true
  · rw [if_pos h, if_pos h]
    refine ⟨⟨fun _ => by simp, fun _ => ⟨_, rfl⟩⟩, ?_⟩
    intro result hres
    simp only [Option.some.injEq] at hres
    subst hres
    exact ⟨rfl, _, rfl⟩
  · rw [if_neg h, if_neg h]
    refine ⟨⟨?_, fun hc => absurd rfl hc⟩, ?_⟩
    · rintro ⟨content, hc⟩
      simp [rpcResult, rpcError] at hc
    · intro result hres
      simp at hres

/-- Witness of C10: the arguments `{a: 2, b: 3}` give the text `"5"` on both
paths. -/
theorem mcp_add_matches_addTool_witness :
    (addTool ⟨Any.map [("a", Any.float64 ⟨false, 2, 0⟩), ("b", Any.float64 ⟨false, 3, 0⟩)]⟩).1 =
        some ⟨[⟨"text", "5"⟩]⟩ ∧
      mcpHandler 0 ⟨"POST", Decoded.ok (callRequest Any.nil "add"
          [("a", Any.float64 ⟨false, 2, 0⟩), ("b", Any.float64 ⟨false, 3, 0⟩)])⟩ =
        some ⟨jsonHeader, some 200, [rpcResult Any.nil "content"
          (Any.slice [Any.textContent ⟨"text", "5"⟩])]⟩ :=
  ⟨rfl, ((mcp_add_matches_addTool 0 (callRequest Any.nil "add"
      [("a", Any.float64 ⟨false, 2, 0⟩), ("b", Any.float64 ⟨false, 3, 0⟩)])
    [("name", Any.string "add"), ("arguments", Any.map
      [("a", Any.float64 ⟨false, 2, 0⟩), ("b", Any.float64 ⟨false, 3, 0⟩)])]
    rfl rfl rfl).2 ⟨[⟨"text", "5"⟩]⟩ rfl).1⟩

/-! ## Further instances -/

/-- Instance of C2: `/api/add?a=5&b=3` answers 200 with `result` 8, and
`/api/add?a=foo&b=3` answers 400. -/
theorem apiAdd_response_witness :
    apiAddHandler "5" "3" =
        ⟨jsonHeader, some 200,
          [Any.map [("a", Any.int 5), ("b", Any.int 3), ("result", Any.int 8)]]⟩ ∧
      apiAddHandler "foo" "3" =
        ⟨jsonHeader, some 400,
          [Any.map [("error", Any.string "Invalid parameters. Use: /api/add?a=5&b=3")]]⟩ :=
  ⟨((apiAdd_response "5" "3").2 5 3 (by decide) (by decide)).1,
    (apiAdd_response "foo" "3").1.2 (Or.inl (by decide))⟩

/-- Instance of C8: without argument `b` the registry handler returns
(nil, nil). -/
theorem addTool_nil_iff_witness :
    addTool ⟨Any.map [("a", Any.float64 ⟨false, 2, 0⟩)]⟩ = (none, none) :=
  (addTool_nil_iff ⟨Any.map [("a", Any.float64 ⟨false, 2, 0⟩)]⟩).1.2
    (Or.inr rfl)

/-- Instance of C9: the value `HTTP` of `SERVER_MODE` selects stdio. -/
theorem main_mode_witness :
    main (fun name => if name = "SERVER_MODE" then "HTTP" else "9000") = Action.ServeStdio :=
  (main_mode (fun name => if name = "SERVER_MODE" then "HTTP" else "9000")).2.1.2 (by decide)

end McpDemo
